import Mathlib

/-!
# Shallow embedding of the cs162 shell core (src/hw-shell/shell.c)

This file models, in Lean, the pipeline / redirection / process-launch core of
the shell: the built-in lookup table, the signal-disposition routines, the
pipe counter, the PATH-based executable resolver, the redirection parser,
the per-stage argument-vector construction done inside `pipe_handler`'s
children, and the parent-side fork/wait/pipe event trace of `pipe_handler`
and of `main`'s single-command path.

OS effects are abstracted into an `Env` record: the value of the PATH
variable, a file-existence oracle (`access(_, F_OK)`), an `open` oracle
returning a file descriptor (or the -1 failure sentinel), and an `execv`
success oracle.  Nullable / possibly-indeterminate C strings are modelled by
`CStr`; a dereference of a null or indeterminate pointer is modelled as an
explicit crash outcome rather than a value.
-/

namespace Shell

/-- Abstraction of the OS facilities the shell core consults. -/
structure Env where
  /-- The value of the `PATH` environment variable. -/
  pathVar : String
  /-- `access(p, F_OK) != -1`: does the file exist? -/
  fileExists : String → Bool
  /-- Result of `open` on a redirection target: a file descriptor, `-1` on
  failure.  The `Bool` is `true` for an output (`O_CREAT|O_WRONLY|O_TRUNC`)
  open, `false` for an input (`O_RDONLY`) open. -/
  openFd : Bool → String → Int
  /-- Does `execv` succeed on this program path? -/
  execOk : String → Bool

/-- A C `char *` cell as it can occur in the shell's argv arrays: a proper
string, the null pointer, or an indeterminate (never-written) cell of a
stack array. -/
inductive CStr where
  | str (s : String)
  | nullp
  | undef
deriving DecidableEq

/-- Signals manipulated by `signal_ingore` / `signal_default`. -/
inductive Sig where
  | int | quit | kill | term | tstp | cont | ttin | ttou
deriving DecidableEq

/-- A signal disposition: `SIG_DFL` or `SIG_IGN`. -/
inductive Disp where
  | dfl | ign
deriving DecidableEq

/-- The body of `signal_ingore` (shell.c lines 37-46): the list of
`signal(sig, disp)` calls it performs, in order.  Note that every call
installs `SIG_DFL`. -/
def signal_ingore : List (Sig × Disp) :=
  [(Sig.int, Disp.dfl), (Sig.quit, Disp.dfl), (Sig.kill, Disp.dfl),
   (Sig.term, Disp.dfl), (Sig.tstp, Disp.dfl), (Sig.cont, Disp.dfl),
   (Sig.ttin, Disp.dfl), (Sig.ttou, Disp.dfl)]

/-- The body of `signal_default` (shell.c lines 47-56). -/
def signal_default : List (Sig × Disp) :=
  [(Sig.int, Disp.dfl), (Sig.quit, Disp.dfl), (Sig.kill, Disp.dfl),
   (Sig.term, Disp.dfl), (Sig.tstp, Disp.dfl), (Sig.cont, Disp.dfl),
   (Sig.ttin, Disp.dfl), (Sig.ttou, Disp.dfl)]

/-- Apply a list of `signal` calls to a disposition map. -/
def applySignals (calls : List (Sig × Disp)) (d : Sig → Disp) : Sig → Disp :=
  calls.foldl (fun m p s => if s = p.1 then p.2 else m s) d

/-- A process starts with every signal at its default disposition. -/
def initialDisp : Sig → Disp := fun _ => Disp.dfl

/-- The shell's signal dispositions after `init_shell` (which ends by calling
`signal_ingore`). -/
def dispAfterInit : Sig → Disp := applySignals signal_ingore initialDisp

/-- The built-in command table `cmd_table` (names only, in order). -/
def cmd_table : List String := ["?", "exit", "pwd", "cd"]

/-- The search loop of `lookup`: returns the index of the first table entry
equal to `c`, or `-1`. -/
def lookupIn : List String → Nat → String → Int
  | [], _, _ => -1
  | t :: ts, i, c => if t = c then Int.ofNat i else lookupIn ts (i + 1) c

/-- `lookup(cmd)` (shell.c lines 96-101).  `none` models a `NULL` argument
(`tokens_get_token` on an empty line); the `cmd &&` guard makes that case
return `-1`. -/
def lookup (cmd : Option String) : Int :=
  match cmd with
  | none => -1
  | some c => lookupIn cmd_table 0 c

/-- `have_redirection(argv, argc)` (shell.c lines 132-141). -/
def have_redirection (argv : List String) : Bool :=
  argv.any (fun t => t = "<" || t = ">")

/-- `have_pipes(argv, argc)` (shell.c lines 143-154): the number of `"|"`
tokens, or `-1` when there are none. -/
def have_pipes (argv : List String) : Int :=
  let n := (argv.filter (fun t => t = "|")).length
  if n = 0 then -1 else Int.ofNat n

/-- `strtok(path_copy, ":")` iteration: split on `':'`, dropping empty
fields (strtok skips leading and repeated separators). -/
def splitCharsAux : List Char → List Char → List String
  | [], acc => [String.mk acc.reverse]
  | c :: cs, acc =>
    if c = ':' then String.mk acc.reverse :: splitCharsAux cs []
    else splitCharsAux cs (c :: acc)

/-- The ordered list of PATH directories `get_full_path_command` iterates
over. -/
def strtokSplit (s : String) : List String :=
  (splitCharsAux s.data []).filter (fun d => d != "")

/-- The search loop of `get_full_path_command`: try `dir ++ "/" ++ cmd` for
each directory in order; the first existing candidate replaces the command;
if none exists the command is left unchanged. -/
def searchPath (fs : String → Bool) (cmd : String) : List String → String
  | [] => cmd
  | d :: ds =>
    let full := d ++ "/" ++ cmd
    if fs full then full else searchPath fs cmd ds

/-- `get_full_path_command(&command)` (shell.c lines 157-183) on a non-null
command string: if the name contains `'/'` it is used verbatim (no lookup);
otherwise PATH is split and searched in order. -/
def resolveCmd (env : Env) (c : String) : String :=
  if c.data.any (fun ch => ch = '/') then c
  else searchPath env.fileExists c (strtokSplit env.pathVar)

/-- Outcome of `get_full_path_command` on a `CStr` cell: on a proper string
it resolves; on the null pointer `strchr(*command, '/')` dereferences `NULL`;
on an indeterminate cell it reads a garbage pointer. -/
inductive Resolved where
  | ok (s : String)
  | crashNull
  | crashUndef
deriving DecidableEq

/-- `get_full_path_command` applied to an argv cell that may be null or
indeterminate (as happens for degenerate pipeline stages). -/
def resolveC (env : Env) : CStr → Resolved
  | CStr.str s => Resolved.ok (resolveCmd env s)
  | CStr.nullp => Resolved.crashNull
  | CStr.undef => Resolved.crashUndef

/-- Direction of a redirection operator. -/
inductive RDir where
  | rin | rout
deriving DecidableEq

/-- The scan loop of `redirection_handler` (shell.c lines 196-214): find the
first `">"` or `"<"` token; record its direction, its index, and the
following token (the target filename) if any, then `break`. -/
def scanRedirAux : List String → Nat → Option (RDir × Nat × Option String)
  | [], _ => none
  | t :: ts, i =>
    if t = ">" then some (RDir.rout, i, ts.head?)
    else if t = "<" then some (RDir.rin, i, ts.head?)
    else scanRedirAux ts (i + 1)

/-- First redirection operator of a stage's argv, with its index and target. -/
def scanRedir (argv : List String) : Option (RDir × Nat × Option String) :=
  scanRedirAux argv 0

/-- The pure parsing part of `redirection_handler`: the cleaned argument
vector (`argv_after`, everything before the first operator) and the single
recognized directive, if any. -/
structure RedirParse where
  argvAfter : List String
  redir : Option (RDir × Option String)
deriving DecidableEq

/-- `argc_after` / `argv_after` construction of `redirection_handler`
(shell.c lines 216-229). -/
def redirection_parse (argv : List String) : RedirParse :=
  match scanRedir argv with
  | none => ⟨argv, none⟩
  | some (d, i, f) => ⟨argv.take i, some (d, f)⟩

/-- Observable actions of a child running `redirection_handler` /
`execute`: diagnostics printed, `dup2(fd, target)` calls performed
(target `0` = stdin, `1` = stdout), and the final `execv(argv_after[0],
argv_after)` call (`execProg = none` models a `NULL` program argument). -/
structure RunRec where
  printed : List String
  dups : List (Int × Nat)
  execProg : Option String
  execArgs : List String
deriving DecidableEq

/-- The diagnostic `redirection_handler` prints when its descriptor test
fires (note the differing format strings for input and output). -/
def openDiag (d : RDir) (f : Option String) : String :=
  match d, f with
  | RDir.rin, some fn => "can't open file :" ++ fn
  | RDir.rout, some fn => "can't open file:" ++ fn
  | RDir.rin, none => "can't open file :"
  | RDir.rout, none => "can't open file:"

/-- The standard descriptor a directive redirects: stdin for `<`, stdout
for `>`. -/
def targetOf : RDir → Nat
  | RDir.rin => 0
  | RDir.rout => 1

/-- The descriptor produced for a directive: `open` when a filename follows
the operator, otherwise the fd variable keeps its initial `-1`. -/
def fdFor (env : Env) (d : RDir) (f : Option String) : Int :=
  match f with
  | none => -1
  | some fn => env.openFd (d = RDir.rout) fn

/-- `redirection_handler(argv, argc)` (shell.c lines 186-247).  Faithful
detail: the descriptor-validity test is `if (!fd)`, i.e. it fires exactly
when `fd = 0`; in that case the diagnostic is printed, `dup2` is skipped,
and control still falls through to `execv`.  For any other descriptor
(including the `-1` failure sentinel) `dup2(fd, target)` is attempted and
control proceeds to `execv`.  No branch exits the process. -/
def redirection_handler (env : Env) (argv : List String) : RunRec :=
  match scanRedir argv with
  | none => { printed := [], dups := [], execProg := argv.head?, execArgs := argv }
  | some (d, i, f) =>
    let fd := fdFor env d f
    let after := argv.take i
    if fd = 0 then
      { printed := [openDiag d f], dups := [], execProg := after.head?, execArgs := after }
    else
      { printed := [], dups := [(fd, targetOf d)], execProg := after.head?, execArgs := after }

/-- `execute(argv, argc)` (shell.c lines 249-255): dispatch to
`redirection_handler` when a redirection token is present, else
`execv(argv[0], argv)` directly.  Prints nothing of its own; if `execv`
fails it simply returns to its caller. -/
def execute (env : Env) (argv : List String) : RunRec :=
  if have_redirection argv then redirection_handler env argv
  else { printed := [], dups := [], execProg := argv.head?, execArgs := argv }

/-- `main`'s argv construction (shell.c lines 371-381): every token is
copied, and the first one is resolved with `get_full_path_command`. -/
def mainArgv (env : Env) (tokens : List String) : List String :=
  match tokens with
  | [] => []
  | t :: ts => resolveCmd env t :: ts

/-- What `main` decides to do with a tokenized line (shell.c lines
358-399): run a built-in in-process, fork a single child, or run
`pipe_handler` with `n` stages. -/
inductive MainAction where
  | builtinCmd (idx : Nat)
  | singleChild (argv : List String)
  | pipeline (argv : List String) (n : Nat)
deriving DecidableEq

/-- The dispatch of `main` on one input line: built-in lookup first; only
in the non-built-in branch is the argv built, the first token resolved and
the pipe count consulted. -/
def mainDispatch (env : Env) (tokens : List String) : MainAction :=
  let fundex := lookup tokens.head?
  if 0 ≤ fundex then MainAction.builtinCmd fundex.toNat
  else
    let argv := mainArgv env tokens
    let np := have_pipes argv
    if np = -1 then MainAction.singleChild argv
    else MainAction.pipeline argv (np.toNat + 1)

/-- Fate of the forked child in `main`'s single-command branch (shell.c
lines 385-395): either `execv` succeeds and the program image is replaced,
or `execute` returns and the child falls out of the `if` and continues
running the shell's interactive loop. -/
inductive ChildFate where
  | replaced (prog : String) (args : List String)
  | continuedShellLoop (printed : List String)
deriving DecidableEq

/-- The single-command child: `signal_default(); execute(argv, argc);` and
then — with no `exit` call anywhere on the path — straight back into the
`while (fgets ...)` loop. -/
def nonPipeChild (env : Env) (tokens : List String) : ChildFate :=
  let argv := mainArgv env tokens
  let r := execute env argv
  match r.execProg with
  | some p =>
    if env.execOk p then ChildFate.replaced p r.execArgs
    else ChildFate.continuedShellLoop r.printed
  | none => ChildFate.continuedShellLoop r.printed

/-! ## The parent-side event trace of `pipe_handler` and of `main` -/

/-- Observable parent-side events of pipeline execution: a `pipe()` call,
a `fork()` of child `i`, and a `waitpid` collection of child `i`. -/
inductive Ev where
  | pipeCreated (i : Nat)
  | forked (i : Nat)
  | waited (i : Nat)
deriving DecidableEq

/-- The pipe-creation loop of `pipe_handler` (shell.c lines 262-267):
`pipe(pipe_arr[i])` for `i = 0 .. k-1`, in order. -/
def pipesTrace : Nat → List Ev
  | 0 => []
  | k + 1 => pipesTrace k ++ [Ev.pipeCreated k]

/-- The fork loop of `pipe_handler` as the parent executes it (shell.c
lines 269-341): each iteration `i` forks child `i` and then immediately
calls `waitpid` on it, before the next iteration forks child `i + 1`. -/
def forkWaitTrace : Nat → List Ev
  | 0 => []
  | k + 1 => forkWaitTrace k ++ [Ev.forked k, Ev.waited k]

/-- The full parent-side trace of `pipe_handler(argv, argc, n)`: `n - 1`
pipes created up front, then the interleaved fork/wait loop over the `n`
stages. -/
def pipe_handler_trace (n : Nat) : List Ev :=
  pipesTrace (n - 1) ++ forkWaitTrace n

/-- The parent-side trace of `main` for one input line: nothing for a
built-in; one fork and one wait for a pipeless command; `pipe_handler`'s
trace for a pipeline. -/
def mainTrace (env : Env) (tokens : List String) : List Ev :=
  match mainDispatch env tokens with
  | MainAction.builtinCmd _ => []
  | MainAction.singleChild _ => [Ev.forked 0, Ev.waited 0]
  | MainAction.pipeline _ n => pipe_handler_trace n

/-- The number of stages the line is executed with, when it is not a
built-in: `1` for the single-fork path, the stage count passed to
`pipe_handler` otherwise. -/
def stageCount (env : Env) (tokens : List String) : Option Nat :=
  match mainDispatch env tokens with
  | MainAction.builtinCmd _ => none
  | MainAction.singleChild _ => some 1
  | MainAction.pipeline _ n => some n

/-- Is the event a fork? -/
def isFork : Ev → Bool
  | Ev.forked _ => true
  | _ => false

/-- Is the event a wait-collection? -/
def isWait : Ev → Bool
  | Ev.waited _ => true
  | _ => false

/-- Is the event a pipe creation? -/
def isPipe : Ev → Bool
  | Ev.pipeCreated _ => true
  | _ => false

/-- Count the events of a trace satisfying `p`. -/
def countEv (p : Ev → Bool) (tr : List Ev) : Nat :=
  (tr.filter p).length

/-! ## Per-stage argument vectors built inside `pipe_handler`'s children -/

/-- The scan `for (k = s; k < argc; ++k) if (strcmp("|", argv[k]) == 0)`
(both the child's stage-closing scan and the parent's `start_index`
update): index of the first `"|"` token at or after `s`. -/
def firstPipeAux : List String → Nat → Option Nat
  | [], _ => none
  | t :: ts, i => if t = "|" then some i else firstPipeAux ts (i + 1)

/-- First `"|"` at or after position `s` of `argv`. -/
def firstPipeFrom (argv : List String) (s : Nat) : Option Nat :=
  firstPipeAux (argv.drop s) s

/-- The value of `start_index` when child `i` is forked: `0` for the first
iteration; after each parent iteration it advances to one past the first
`"|"` at or after the previous start (and is left unchanged when no `"|"`
is found, matching the update loop of shell.c lines 333-339). -/
def stageStart (argv : List String) : Nat → Nat
  | 0 => 0
  | i + 1 =>
    match firstPipeFrom argv (stageStart argv i) with
    | some k => k + 1
    | none => stageStart argv i

/-- The `sub_argv` array a non-tail child builds (shell.c lines 293-300):
size `sub_argc + 1`, cell `sub_argc` set to `NULL`, and the copy loop
`for (j = start_index; j < sub_argc; ++j) sub_argv[j - start_index] =
argv[j]` — so cell `p` receives `argv[start + p]` exactly when
`start + p < sub_argc`, and is otherwise never written (indeterminate). -/
def sub_argv_nonlast (argv : List String) (start sub_argc : Nat) : List CStr :=
  (List.range (sub_argc + 1)).map (fun p =>
    if p = sub_argc then CStr.nullp
    else if start + p < sub_argc then CStr.str (argv.getD (start + p) "")
    else CStr.undef)

/-- The `sub_argv` array the tail child builds (shell.c lines 308-316):
the copy loop runs `for (j = start_index; j < argc; ++j)`, filling every
cell with `argv[start + p]`, followed by the `NULL` terminator. -/
def sub_argv_last (argv : List String) (start : Nat) : List CStr :=
  ((argv.drop start).map CStr.str) ++ [CStr.nullp]

/-- The argument vector child `i` of an `n`-stage pipeline materializes:
the tail child (`i = n - 1`) copies `[start, argc)`; any other child closes
its stage at the first `"|"` at or after its start and runs the (buggy)
bounded copy loop; if no `"|"` is found the child builds nothing. -/
def childStageArgv (argv : List String) (n i : Nat) : List CStr :=
  let start := stageStart argv i
  if i = n - 1 then sub_argv_last argv start
  else
    match firstPipeFrom argv start with
    | some k => sub_argv_nonlast argv start (k - start)
    | none => []

/-- The argument `&sub_argv[0]` child `i` passes to
`get_full_path_command`: the head cell of its materialized argv (the
`NULL` terminator itself when the stage is empty). -/
def childStageHead (argv : List String) (n i : Nat) : CStr :=
  (childStageArgv argv n i).headD CStr.nullp

/-- What `get_full_path_command(&sub_argv[0])` does in child `i`. -/
def childStageResolve (env : Env) (argv : List String) (n i : Nat) : Resolved :=
  resolveC env (childStageHead argv n i)

/-! ## Concrete environments used for evaluation -/

/-- An environment with an empty PATH in which no file exists, every
`open` fails with `-1`, and every `execv` fails. -/
def env0 : Env :=
  { pathVar := "", fileExists := fun _ => false,
    openFd := fun _ _ => -1, execOk := fun _ => false }

/-- An environment whose every `open` returns descriptor `0` (a legitimate
descriptor: stdin had been closed). -/
def envFd0 : Env :=
  { pathVar := "", fileExists := fun _ => false,
    openFd := fun _ _ => 0, execOk := fun _ => false }

/-- PATH is `"/a:/b"` and both `/a/t` and `/b/t` exist. -/
def envTwoDirs : Env :=
  { pathVar := "/a:/b", fileExists := fun s => s == "/a/t" || s == "/b/t",
    openFd := fun _ _ => -1, execOk := fun _ => false }

/-- The direction the code assigns to a redirection operator token. -/
def dirTok (t : String) : RDir :=
  if t = ">" then RDir.rout else RDir.rin

end Shell

namespace Shell

/-! ## Helper lemmas -/

theorem countEv_append (p : Ev → Bool) (l₁ l₂ : List Ev) :
    countEv p (l₁ ++ l₂) = countEv p l₁ + countEv p l₂ := by
  simp [countEv, List.filter_append]

theorem countEv_fork_pipesTrace (k : Nat) : countEv isFork (pipesTrace k) = 0 := by
  induction k with
  | zero => rfl
  | succ m ih => rw [pipesTrace, countEv_append, ih]; simp [countEv, isFork]

theorem countEv_wait_pipesTrace (k : Nat) : countEv isWait (pipesTrace k) = 0 := by
  induction k with
  | zero => rfl
  | succ m ih => rw [pipesTrace, countEv_append, ih]; simp [countEv, isWait]

theorem countEv_pipe_pipesTrace (k : Nat) : countEv isPipe (pipesTrace k) = k := by
  induction k with
  | zero => rfl
  | succ m ih => rw [pipesTrace, countEv_append, ih]; simp [countEv, isPipe]

theorem countEv_fork_forkWaitTrace (k : Nat) : countEv isFork (forkWaitTrace k) = k := by
  induction k with
  | zero => rfl
  | succ m ih => rw [forkWaitTrace, countEv_append, ih]; simp [countEv, isFork, isWait]

theorem countEv_wait_forkWaitTrace (k : Nat) : countEv isWait (forkWaitTrace k) = k := by
  induction k with
  | zero => rfl
  | succ m ih => rw [forkWaitTrace, countEv_append, ih]; simp [countEv, isFork, isWait]

theorem countEv_pipe_forkWaitTrace (k : Nat) : countEv isPipe (forkWaitTrace k) = 0 := by
  induction k with
  | zero => rfl
  | succ m ih => rw [forkWaitTrace, countEv_append, ih]; simp [countEv, isPipe]

/-- In the fork loop's trace, the wait-collection of child `i` occurs
strictly before the fork of child `i + 1`. -/
theorem forkWaitTrace_decomp (n i : Nat) (hi : i + 1 < n) :
    ∃ l₁ l₂ l₃,
      forkWaitTrace n = l₁ ++ Ev.waited i :: (l₂ ++ Ev.forked (i + 1) :: l₃) := by
  induction n with
  | zero => omega
  | succ m ih =>
    rcases Nat.lt_or_ge (i + 1) m with hlt | hge
    · obtain ⟨l₁, l₂, l₃, he⟩ := ih hlt
      refine ⟨l₁, l₂, l₃ ++ [Ev.forked m, Ev.waited m], ?_⟩
      rw [forkWaitTrace, he]
      simp
    · have hm : m = i + 1 := by omega
      subst hm
      refine ⟨forkWaitTrace i ++ [Ev.forked i], [], [Ev.waited (i + 1)], ?_⟩
      rw [forkWaitTrace, forkWaitTrace]
      simp

/-- The scan loop of `redirection_handler` finds exactly the first
redirection operator: its direction, its absolute index, and the token
following it. -/
theorem scanRedirAux_spec :
    ∀ (l : List String) (b i : Nat) (t : String),
      l.get? i = some t → (t = ">" ∨ t = "<") →
      (∀ j, j < i → l.get? j ≠ some ">" ∧ l.get? j ≠ some "<") →
      scanRedirAux l b = some (dirTok t, b + i, l.get? (i + 1))
  | [], _, i, t, ht, _, _ => by simp at ht
  | hd :: tl, b, 0, t, ht, hop, _ => by
    have hhd : hd = t := Option.some.inj ht
    subst hhd
    rcases hop with h | h
    · subst h
      cases tl <;> rfl
    · subst h
      cases tl <;> rfl
  | hd :: tl, b, j + 1, t, ht, hop, hfirst => by
    have hhd := hfirst 0 (Nat.succ_pos j)
    have hne1 : hd ≠ ">" := by
      intro h; exact hhd.1 (by simp [h])
    have hne2 : hd ≠ "<" := by
      intro h; exact hhd.2 (by simp [h])
    have htl : tl.get? j = some t := ht
    have hfirst' : ∀ k, k < j → tl.get? k ≠ some ">" ∧ tl.get? k ≠ some "<" := by
      intro k hk
      exact hfirst (k + 1) (Nat.succ_lt_succ hk)
    have := scanRedirAux_spec tl (b + 1) j t htl hop hfirst'
    rw [scanRedirAux, if_neg hne1, if_neg hne2, this]
    have harith : b + 1 + j = b + (j + 1) := by omega
    rw [harith]
    rfl

/-- The PATH search loop returns the candidate of the first directory whose
candidate exists, independently of later directories. -/
theorem searchPath_first (fs : String → Bool) (c : String) :
    ∀ (ds₁ : List String) (d : String) (ds₂ : List String),
      (∀ d' ∈ ds₁, fs (d' ++ "/" ++ c) = false) →
      fs (d ++ "/" ++ c) = true →
      searchPath fs c (ds₁ ++ d :: ds₂) = d ++ "/" ++ c
  | [], d, ds₂, _, hd => by
    simp [searchPath, hd]
  | d' :: ds₁, d, ds₂, h₁, hd => by
    have hne : fs (d' ++ "/" ++ c) = false := h₁ d' (List.mem_cons_self d' ds₁)
    rw [List.cons_append, searchPath]
    simp only [hne, Bool.false_eq_true, if_false]
    exact searchPath_first fs c ds₁ d ds₂ (fun x hx => h₁ x (List.mem_cons_of_mem d' hx)) hd

/-- The built-in table search returns a non-negative index whenever the
name is present in the table. -/
theorem lookupIn_mem_nonneg :
    ∀ (l : List String) (b : Nat) (c : String), c ∈ l → 0 ≤ lookupIn l b c
  | [], _, c, h => by simp at h
  | t :: ts, b, c, h => by
    rw [lookupIn]
    by_cases he : t = c
    · simp [he]
    · have : c ∈ ts := by
        rcases List.mem_cons.mp h with h' | h'
        · exact absurd h'.symm he
        · exact h'
      simp only [he, if_false]
      exact lookupIn_mem_nonneg ts (b + 1) c this

/-! ## Claims -/

/-- C1: the claim states that a stage child whose exec fails prints a
diagnostic and terminates with a non-zero status, never continuing the
shell's interactive loop.  The code violates this: `execute` prints nothing
when `execv` fails and no branch of the child calls `exit`, so the child
falls out of the `if (pid == 0)` block and continues running the
interactive loop.  Evaluated at the failing input `nosuchprog123` (an
unresolvable command): the child's fate is `continuedShellLoop` with an
empty list of printed diagnostics. -/
theorem C1_exec_failure_child_falls_through :
    mainDispatch env0 ["nosuchprog123"] = MainAction.singleChild ["nosuchprog123"] ∧
    nonPipeChild env0 ["nosuchprog123"] = ChildFate.continuedShellLoop [] := by
  decide

/-- C2: the claim states that the shell sets the job-control and interrupt
signals to the ignored disposition while reading commands.  The code
violates this: every `signal` call in `signal_ingore` installs `SIG_DFL`,
its body is identical to `signal_default`, and after `init_shell` the
shell's disposition for `SIGINT` is the default, not ignore — so `Ctrl-C`
at the prompt kills the interpreter. -/
theorem C2_shell_does_not_ignore_signals :
    signal_ingore.all (fun p => p.2 == Disp.dfl) = true ∧
    signal_ingore = signal_default ∧
    dispAfterInit Sig.int = Disp.dfl ∧
    dispAfterInit Sig.int ≠ Disp.ign := by
  decide

/-- C3: an `n`-stage pipeline (for any line `main` does not treat as a
built-in) launches exactly `n` children and performs exactly `n`
wait-collections, and for `n ≥ 2` creates exactly `n - 1` pipes: one fork
and one wait in `main`'s single-command branch, and in `pipe_handler` a
pipe loop of length `n - 1` followed by a fork loop of `n` iterations each
containing one `waitpid`. -/
theorem C3_pipeline_counts (env : Env) (tokens : List String) (n : Nat)
    (h : stageCount env tokens = some n) :
    countEv isFork (mainTrace env tokens) = n ∧
    countEv isWait (mainTrace env tokens) = n ∧
    (2 ≤ n → countEv isPipe (mainTrace env tokens) = n - 1) := by
  cases hmd : mainDispatch env tokens with
  | builtinCmd i =>
    simp [stageCount, hmd] at h
  | singleChild a =>
    simp only [stageCount, hmd, Option.some.injEq] at h
    subst h
    simp only [mainTrace, hmd]
    exact ⟨rfl, rfl, fun h2 => absurd h2 (by decide)⟩
  | pipeline a m =>
    simp only [stageCount, hmd, Option.some.injEq] at h
    subst h
    simp only [mainTrace, hmd, pipe_handler_trace]
    rw [countEv_append, countEv_append, countEv_append,
       countEv_fork_pipesTrace, countEv_fork_forkWaitTrace,
       countEv_wait_pipesTrace, countEv_wait_forkWaitTrace,
       countEv_pipe_pipesTrace, countEv_pipe_forkWaitTrace]
    exact ⟨by omega, by omega, fun _ => by omega⟩

/-- C3 witness: the two-stage pipeline `a | b` forks twice, waits twice and
creates one pipe. -/
theorem C3_pipeline_counts_witness :
    stageCount env0 ["a", "|", "b"] = some 2 ∧
    countEv isFork (mainTrace env0 ["a", "|", "b"]) = 2 ∧
    countEv isWait (mainTrace env0 ["a", "|", "b"]) = 2 ∧
    countEv isPipe (mainTrace env0 ["a", "|", "b"]) = 1 := by
  have h : stageCount env0 ["a", "|", "b"] = some 2 := by decide
  have hc := C3_pipeline_counts env0 ["a", "|", "b"] 2 h
  exact ⟨h, hc.1, hc.2.1, hc.2.2 (by decide)⟩

/-- C5 counterexample: the claim states that every fork of a pipeline child
precedes every wait-collection.  In the trace of the two-stage pipeline
`a | b`, position 2 is the wait-collection of child 0 and position 3 is the
fork of child 1 — a wait occurs strictly before a fork, refuting the claim
at this concrete input. -/
theorem C5_wait_precedes_fork_counterexample :
    (mainTrace env0 ["a", "|", "b"]).get? 2 = some (Ev.waited 0) ∧
    (mainTrace env0 ["a", "|", "b"]).get? 3 = some (Ev.forked 1) := by
  decide

/-- C5 amended: launching and collecting are interleaved — for every
pipeline stage `i` that is not the last, the wait-collection of child `i`
occurs in the supervisor's trace strictly before the fork of child
`i + 1` (so collection begins before all children are launched). -/
theorem C5_wait_interleaved_with_fork (env : Env) (tokens : List String)
    (n i : Nat) (h : stageCount env tokens = some n) (hi : i + 1 < n) :
    ∃ l₁ l₂ l₃,
      mainTrace env tokens = l₁ ++ Ev.waited i :: (l₂ ++ Ev.forked (i + 1) :: l₃) := by
  cases hmd : mainDispatch env tokens with
  | builtinCmd j =>
    simp [stageCount, hmd] at h
  | singleChild a =>
    simp only [stageCount, hmd, Option.some.injEq] at h
    omega
  | pipeline a m =>
    simp only [stageCount, hmd, Option.some.injEq] at h
    subst h
    obtain ⟨l₁, l₂, l₃, he⟩ := forkWaitTrace_decomp m i hi
    refine ⟨pipesTrace (m - 1) ++ l₁, l₂, l₃, ?_⟩
    simp only [mainTrace, hmd, pipe_handler_trace, he]
    simp

/-- C5 amended, witness: in `a | b`, the wait for child 0 precedes the fork
of child 1. -/
theorem C5_wait_interleaved_with_fork_witness :
    ∃ l₁ l₂ l₃,
      mainTrace env0 ["a", "|", "b"] =
        l₁ ++ Ev.waited 0 :: (l₂ ++ Ev.forked 1 :: l₃) :=
  C5_wait_interleaved_with_fork env0 ["a", "|", "b"] 2 0 (by decide) (by decide)

/-- C6: the redirection parser recognizes only the first `<` or `>` token:
everything before it becomes the cleaned argument vector, the token right
after it (if present) is the target filename, and everything past the
(operator, filename) pair is silently dropped (the result records no other
directive and no error). -/
theorem C6_first_redirection_wins (argv : List String) (i : Nat) (t : String)
    (ht : argv.get? i = some t) (hop : t = ">" ∨ t = "<")
    (hfirst : ∀ j, j < i → argv.get? j ≠ some ">" ∧ argv.get? j ≠ some "<") :
    redirection_parse argv =
      { argvAfter := argv.take i, redir := some (dirTok t, argv.get? (i + 1)) } := by
  unfold redirection_parse scanRedir
  rw [scanRedirAux_spec argv 0 i t ht hop hfirst]
  simp

/-- C6 witness: in `cat < f > g x` the parser keeps `["cat"]`, targets `f`
for input, and drops the later `> g x` tokens without error. -/
theorem C6_first_redirection_wins_witness :
    redirection_parse ["cat", "<", "f", ">", "g", "x"] =
      { argvAfter := ["cat"], redir := some (RDir.rin, some "f") } :=
  (C6_first_redirection_wins ["cat", "<", "f", ">", "g", "x"] 1 "<" (by decide)
      (Or.inr rfl)
      (fun j hj => by
        have hj0 : j = 0 := by omega
        subst hj0
        exact ⟨by decide, by decide⟩)).trans (by decide)

/-- C7: the claim states that a stage whose redirection target fails to
open aborts (only that child) with a diagnostic naming the file, and that a
valid descriptor is exactly a non-negative one.  The code violates this:
its test is `if (!fd)`, so on a failed open (`fd = -1`) it prints nothing,
attempts `dup2(-1, 0)` and falls through to `execv` (first conjunct), while
the legitimate descriptor `0` is the one value treated as an open failure —
the diagnostic is printed, `dup2` is skipped, and the child still proceeds
to `execv` instead of exiting (second conjunct). -/
theorem C7_descriptor_zero_check_bug :
    redirection_handler env0 ["cat", "<", "nofile"] =
      { printed := [], dups := [(-1, 0)],
        execProg := some "cat", execArgs := ["cat"] } ∧
    redirection_handler envFd0 ["cat", "<", "f"] =
      { printed := ["can't open file :f"], dups := [],
        execProg := some "cat", execArgs := ["cat"] } := by
  decide

/-- C8: a command name containing `/` is used verbatim with no search-path
lookup; a bare name is resolved by splitting PATH on `:` into an ordered
directory list and testing `dir ++ "/" ++ name` in order, the first
existing candidate winning over any later one. -/
theorem C8_resolver_path_order (env : Env) (c : String) :
    (c.data.any (fun ch => ch = '/') = true → resolveCmd env c = c) ∧
    (c.data.any (fun ch => ch = '/') = false →
      ∀ (ds₁ : List String) (d : String) (ds₂ : List String),
        strtokSplit env.pathVar = ds₁ ++ d :: ds₂ →
        (∀ d' ∈ ds₁, env.fileExists (d' ++ "/" ++ c) = false) →
        env.fileExists (d ++ "/" ++ c) = true →
        resolveCmd env c = d ++ "/" ++ c) := by
  constructor
  · intro h
    simp [resolveCmd, h]
  · intro h ds₁ d ds₂ hsplit h₁ h₂
    simp only [resolveCmd, h, Bool.false_eq_true, if_false]
    rw [hsplit]
    exact searchPath_first env.fileExists c ds₁ d ds₂ h₁ h₂

/-- C8 witness: with `PATH = "/a:/b"` and both `/a/t` and `/b/t` existing,
`t` resolves to `/a/t` (the earlier directory wins), and a name with a
separator resolves verbatim. -/
theorem C8_resolver_path_order_witness :
    resolveCmd envTwoDirs "t" = "/a/t" ∧ resolveCmd envTwoDirs "dir/t" = "dir/t" :=
  ⟨(C8_resolver_path_order envTwoDirs "t").2 (by decide) [] "/a" ["/b"] (by decide)
      (fun d' hmem => absurd hmem (List.not_mem_nil d')) (by decide),
   (C8_resolver_path_order envTwoDirs "dir/t").1 (by decide)⟩

/-- C9: the claim states that an empty-argument stage is handled as a no-op
`command not found` failure and never crashes.  The code violates this: for
the degenerate line `a |`, the tail stage is empty, its `sub_argv[0]` is
the `NULL` terminator, and the child passes it to `get_full_path_command`,
whose `strchr(*command, '/')` dereferences the null pointer — the child
crashes without any `command not found` handling. -/
theorem C9_empty_stage_null_crash :
    mainDispatch env0 ["a", "|"] = MainAction.pipeline ["a", "|"] 2 ∧
    childStageHead ["a", "|"] 2 1 = CStr.nullp ∧
    childStageResolve env0 ["a", "|"] 2 1 = Resolved.crashNull := by
  decide

/-- C10: when the first token of a line is a built-in name (`?`, `exit`,
`pwd`, `cd`), `main` dispatches to the built-in in its own process; the
pipeline / fork / redirection / resolution code in the `else` branch is
never reached, whatever the rest of the line contains. -/
theorem C10_builtin_priority (env : Env) (ts : List String) (hd : String)
    (h1 : ts.head? = some hd) (h2 : hd ∈ cmd_table) :
    mainDispatch env ts = MainAction.builtinCmd (lookup (some hd)).toNat := by
  have hpos : 0 ≤ lookup (some hd) := lookupIn_mem_nonneg cmd_table 0 hd h2
  simp [mainDispatch, h1, hpos]

/-- C10 witness: `pwd | cat < f` runs the built-in `pwd` (table index 2)
despite the pipe and redirection tokens on the line. -/
theorem C10_builtin_priority_witness :
    mainDispatch env0 ["pwd", "|", "cat", "<", "f"] = MainAction.builtinCmd 2 :=
  (C10_builtin_priority env0 ["pwd", "|", "cat", "<", "f"] "pwd" rfl
      (by decide)).trans (by decide)

/-- C4: the claim states that stage `j`'s argument vector consists exactly
of the tokens strictly between its `|` boundaries.  The range computation
does follow the claimed rule (for `a | b | c`, stage 1 starts at token 2
and closes at the `|` at token 3), and the first and last stages do
materialize their tokens — but the middle stage's copy loop, written
`for (j = start_index; j < sub_argc; ++j)`, runs zero times when
`start_index ≥ sub_argc`, so stage 1's argument cell is left indeterminate
instead of holding `"b"`. -/
theorem C4_middle_stage_argv_lost :
    stageStart ["a", "|", "b", "|", "c"] 1 = 2 ∧
    firstPipeFrom ["a", "|", "b", "|", "c"] 2 = some 3 ∧
    childStageArgv ["a", "|", "b", "|", "c"] 3 1 = [CStr.undef, CStr.nullp] ∧
    childStageArgv ["a", "|", "b", "|", "c"] 3 0 = [CStr.str "a", CStr.nullp] ∧
    childStageArgv ["a", "|", "b", "|", "c"] 3 2 = [CStr.str "c", CStr.nullp] := by
  decide

end Shell
